import Mathlib

/-!
Verification of the focotimer countdown-timer engine.

Shallow embedding of the Go sources:
  * `TimerData` and its methods, from api's `TimerData` (timer.go):
    durations and timestamps are `Int` nanoseconds (Go's `time.Duration` /
    `time.Time` differences); a Go zero-value `time.Time` is `none`.
    The pending `*time.Timer` (armed one-shot fire) is modelled by
    `armedAt : Option Int` (the scheduled fire instant); `Handler` by
    `hasHandler : Bool` (the only handler ever installed is the manager's
    done-closing closure).
  * `TimerManager` and its methods, from api/timer_manager.go: the
    subscriber list is abstracted to its length, the done channel to a
    generation counter `doneGen` plus a `doneClosed` flag (the handler
    closure reads the manager's *current* `doneCh` field at fire time).
    `detached` tracks former primitives replaced by `Reset` whose
    `time.AfterFunc` fire may still be pending.
  * the polybar package's nil-safe wrappers, command dispatch switch,
    FIFO allocation loop and idempotent `Shutdown`, from
    gui/focotimer/polybar/polybar.go.
-/

/-- 5 * time.Second in nanoseconds (the Inc/Dec step). -/
def stepNs : Int := 5000000000

/-- 1 * time.Minute in nanoseconds (the default BreakDuration). -/
def minuteNs : Int := 60000000000

/-- Go struct `TimerData` (api, timer.go). `armedAt` models the pending
`*time.Timer` fire instant (`none` = `Timer == nil` or stopped/fired);
`hasHandler` models `Handler != nil`. -/
structure TimerData where
  duration : Int
  breakDuration : Int
  isComplete : Bool
  startedAt : Option Int
  completedAt : Option Int
  armedAt : Option Int
  hasHandler : Bool
deriving Repr, DecidableEq

/-- `NewTimer(d)`: duration d, break duration 1 minute, not complete,
zero-value timestamps, no pending timer, no handler. -/
def NewTimer (d : Int) : TimerData :=
  { duration := d
    breakDuration := minuteNs
    isComplete := false
    startedAt := none
    completedAt := none
    armedAt := none
    hasHandler := false }

/-- `(*TimerData).StartTimer()` at instant `now`: stops any pending fire,
records `StartedAt = now`, clears `IsComplete`, arms a fire after
`Duration` (i.e. at `now + Duration`). -/
def TimerData.startTimer (t : TimerData) (now : Int) : TimerData :=
  { t with startedAt := some now
           isComplete := false
           armedAt := some (now + t.duration) }

/-- `(*TimerData).StopTimer()`: cancels the pending fire if any. -/
def TimerData.stopTimer (t : TimerData) : TimerData :=
  { t with armedAt := none }

/-- The body of the `time.AfterFunc` installed by `StartTimer`, as it acts
on the `TimerData` itself: sets `IsComplete`, records `CompletedAt`, and
the fire consumes the one-shot timer. (The handler invocation is modelled
at the manager level, where the only installed handler lives.) -/
def TimerData.fire (t : TimerData) (now : Int) : TimerData :=
  { t with isComplete := true
           completedAt := some now
           armedAt := none }

/-- `(*TimerData).Elapsed()` at instant `now`:
`0` if `StartedAt.IsZero() || IsComplete`, else `time.Since(StartedAt)`. -/
def TimerData.elapsed (t : TimerData) (now : Int) : Int :=
  match t.startedAt with
  | none => 0
  | some s => if t.isComplete then 0 else now - s

/-- `(*TimerData).Remaining()` at instant `now`:
`0` if `Duration < elapsed`, else `Duration - elapsed`. -/
def TimerData.remaining (t : TimerData) (now : Int) : Int :=
  let e := t.elapsed now
  if t.duration < e then 0 else t.duration - e

/-- Go struct `TimerManager` (api/timer_manager.go). `subs` is the length
of the subscriber slice; `doneGen` identifies the current `doneCh` (bumped
each time the channel is replaced) and `doneClosed` says whether that
channel has been closed; `detached` holds former `Timer` primitives
replaced by `Reset` (their pending fires are not cancelled). -/
structure TimerManager where
  subs : Nat
  timer : TimerData
  lastValue : Int
  doneGen : Nat
  doneClosed : Bool
  detached : List TimerData
deriving Repr, DecidableEq

/-- `NewTimerManager(duration)`: fresh primitive, zero-value `lastValue`,
fresh (unclosed) done channel. -/
def NewTimerManager (d : Int) : TimerManager :=
  { subs := 0
    timer := NewTimer d
    lastValue := 0
    doneGen := 0
    doneClosed := false
    detached := [] }

/-- `(*TimerManager).Subscribe()`: appends a fresh buffered channel. -/
def TimerManager.subscribe (m : TimerManager) : TimerManager :=
  { m with subs := m.subs + 1 }

/-- One iteration of the `broadcast` ticker body at instant `now`:
`lastValue = t.Timer.Remaining()`, then a non-blocking send of that value
to each subscriber (the sends do not change manager state). -/
def TimerManager.tick (m : TimerManager) (now : Int) : TimerManager :=
  { m with lastValue := m.timer.remaining now }

/-- `(*TimerManager).Stop()`: delegates to the primitive's `StopTimer`. -/
def TimerManager.stop (m : TimerManager) : TimerManager :=
  { m with timer := m.timer.stopTimer }

/-- `(*TimerManager).Reset()`: `d := t.Timer.Duration`; replaces the
primitive with `NewTimer(d)`, sets `lastValue = d`, and replaces `doneCh`
with a fresh channel. The old primitive's pending fire is not cancelled;
it is tracked in `detached`. -/
def TimerManager.reset (m : TimerManager) : TimerManager :=
  { m with timer := NewTimer m.timer.duration
           lastValue := m.timer.duration
           doneGen := m.doneGen + 1
           doneClosed := false
           detached := m.detached ++ [m.timer] }

/-- `(*TimerManager).Start()` at instant `now`: installs the completion
handler (which closes the manager's current `doneCh`, guarded against
double close) on the primitive, then calls its `StartTimer`. -/
def TimerManager.start (m : TimerManager) (now : Int) : TimerManager :=
  { m with timer := ({ m.timer with hasHandler := true }).startTimer now }

/-- `(*TimerManager).Inc()`: `t.Timer.Duration += 5 * time.Second`. -/
def TimerManager.inc (m : TimerManager) : TimerManager :=
  { m with timer := { m.timer with duration := m.timer.duration + stepNs } }

/-- `(*TimerManager).Dec()`: subtracts the 5 s step if
`Duration > 5 * time.Second`, else sets `Duration = 0`. -/
def TimerManager.dec (m : TimerManager) : TimerManager :=
  { m with timer :=
      { m.timer with duration :=
          if m.timer.duration > stepNs then m.timer.duration - stepNs else 0 } }

/-- `(*TimerManager).Snapshot()`: reads `lastValue` under the lock. -/
def TimerManager.snapshot (m : TimerManager) : Int :=
  m.lastValue

/-- The pending fire of the manager's current primitive going off at
instant `now` (only possible while armed): the `AfterFunc` body runs on
the primitive, then the handler — if installed — closes the manager's
current `doneCh` unless it is already closed (the `select` guard). -/
def TimerManager.fireCurrent (m : TimerManager) (now : Int) : TimerManager :=
  match m.timer.armedAt with
  | none => m
  | some _ =>
    { m with timer := m.timer.fire now
             doneClosed := m.doneClosed || m.timer.hasHandler }

/-- The pending fire of the `i`-th detached (pre-`Reset`) primitive going
off at instant `now` (only possible while it is still armed): its
`AfterFunc` body runs, and its handler closure reads the manager's
*current* `doneCh` field and closes it unless already closed. -/
def TimerManager.fireDetached (m : TimerManager) (i : Nat) (now : Int) :
    TimerManager :=
  match m.detached.get? i with
  | none => m
  | some t =>
    match t.armedAt with
    | none => m
    | some _ =>
      { m with detached := m.detached.set i (t.fire now)
               doneClosed := m.doneClosed || t.hasHandler }

/- ------------------------------------------------------------------ -/
/- Theorems                                                            -/
/- ------------------------------------------------------------------ -/

/-- C1 (claim: a never-started primitive's `Remaining()` is `0`; the code
disagrees): for the concrete never-started primitive `NewTimer 200 ms`,
`Remaining()` evaluates to the full duration 200 ms, not 0 — matching
`Duration - Elapsed()` with `Elapsed() = 0`, and contradicting the repo's
own test `TestTimerData_Remaining`, which asserts 0 before starting. -/
theorem remaining_never_started_returns_duration :
    (NewTimer 200000000).remaining 12345 = 200000000 ∧
      (200000000 : Int) ≠ 0 := by
  refine ⟨by decide, by decide⟩

/-- C4: once a primitive is complete (fired, not restarted) its
`Elapsed()` is 0, and consequently — for a non-negative configured
duration — `Remaining()` is the full configured duration, not 0. -/
theorem elapsed_zero_and_remaining_full_after_complete
    (t : TimerData) (now : Int)
    (hc : t.isComplete = true) (hd : 0 ≤ t.duration) :
    t.elapsed now = 0 ∧ t.remaining now = t.duration := by
  have he : t.elapsed now = 0 := by
    unfold TimerData.elapsed
    cases t.startedAt with
    | none => rfl
    | some s => simp [hc]
  refine ⟨he, ?_⟩
  unfold TimerData.remaining
  rw [he]
  have : ¬ t.duration < 0 := not_lt.mpr hd
  simp [this]

/-- Witness for C4 at a reachable concrete state: start a 100 ns timer at
instant 0 and let it fire at instant 100. -/
theorem elapsed_zero_and_remaining_full_after_complete_witness :
    (((NewTimer 100).startTimer 0).fire 100).elapsed 150 = 0 ∧
      (((NewTimer 100).startTimer 0).fire 100).remaining 150 = 100 :=
  elapsed_zero_and_remaining_full_after_complete
    (((NewTimer 100).startTimer 0).fire 100) 150 (by decide) (by decide)

/-- C5: on the coordinator, `Inc()` followed immediately by `Dec()`
restores the exact prior (non-negative) duration, and `Dec()` from any
duration strictly below the 5 s step clamps to exactly 0. -/
theorem inc_dec_restores_and_dec_clamps_to_zero
    (m : TimerManager) :
    (0 ≤ m.timer.duration →
      ((m.inc).dec).timer.duration = m.timer.duration) ∧
    (m.timer.duration < stepNs →
      (m.dec).timer.duration = 0) := by
  constructor
  · intro h
    simp only [TimerManager.inc, TimerManager.dec]
    rcases lt_or_eq_of_le h with hpos | hzero
    · have : m.timer.duration + stepNs > stepNs := by
        have : (0 : Int) < m.timer.duration := hpos
        omega
      simp [this]
    · have : ¬ (m.timer.duration + stepNs > stepNs) := by omega
      simp [this]
      omega
  · intro h
    simp only [TimerManager.dec]
    have : ¬ (m.timer.duration > stepNs) := by
      unfold stepNs at *; omega
    simp [this]

/-- Witness for C5 on the globally constructed manager shape
(`NewTimerManager (10 s)`) and on a 3 s manager for the clamp. -/
theorem inc_dec_restores_and_dec_clamps_to_zero_witness :
    (((NewTimerManager 10000000000).inc).dec).timer.duration
        = 10000000000 ∧
      ((NewTimerManager 3000000000).dec).timer.duration = 0 :=
  ⟨(inc_dec_restores_and_dec_clamps_to_zero
      (NewTimerManager 10000000000)).1 (by decide),
   (inc_dec_restores_and_dec_clamps_to_zero
      (NewTimerManager 3000000000)).2 (by decide)⟩

/-- C2 (claim: `Reset()` restores the duration the coordinator was
*constructed* with; the code keeps the *current* duration): construct with
100 ms, call `Inc()`, then `Reset()`: the resulting duration is 5.1 s, not
the constructed 100 ms — contradicting the repo's own test
`TestTimerManager_IncDecWorkflow`, which asserts reset restores the
original duration after Inc/Dec.  (The done-channel half of the claim
does hold: the post-reset channel is fresh and unclosed.) -/
theorem reset_keeps_adjusted_duration :
    (((NewTimerManager 100000000).inc).reset).timer.duration
        = 5100000000 ∧
      (5100000000 : Int) ≠ 100000000 ∧
      (((NewTimerManager 100000000).inc).reset).doneGen
          = (NewTimerManager 100000000).doneGen + 1 ∧
      (((NewTimerManager 100000000).inc).reset).doneClosed = false := by
  refine ⟨by decide, by decide, by decide, by decide⟩

/-- C3 counterexample: immediately after construction, before any
broadcast tick, `Snapshot()` is the Go zero value 0, not the constructed
duration (here 10 s). -/
theorem snapshot_after_construction_is_zero :
    (NewTimerManager 10000000000).snapshot = 0 ∧
      (0 : Int) ≠ 10000000000 := by
  refine ⟨by decide, by decide⟩

/-- C3 amended: `Snapshot()` returns `lastValue`, which is 0 immediately
after construction (not the constructed duration), equals the remaining
time of the current primitive computed at the most recent broadcast tick,
is set to the current duration by `Reset()`, and is left unchanged by
`Start`, `Stop`, `Inc`, `Dec` and `Subscribe`. -/
theorem snapshot_tracks_last_tick
    (d now : Int) (m : TimerManager) :
    (NewTimerManager d).snapshot = 0 ∧
      (m.tick now).snapshot = m.timer.remaining now ∧
      (m.reset).snapshot = m.timer.duration ∧
      (m.start now).snapshot = m.snapshot ∧
      (m.stop).snapshot = m.snapshot ∧
      (m.inc).snapshot = m.snapshot ∧
      (m.dec).snapshot = m.snapshot ∧
      (m.subscribe).snapshot = m.snapshot := by
  refine ⟨rfl, rfl, rfl, rfl, rfl, rfl, rfl, rfl⟩

/-- C9: `Reset()` mutates only the `Timer` reference, `lastValue` and the
done channel: the subscriber list is untouched, and it never calls the
replaced primitive's `StopTimer` — the replaced primitive is carried over
into `detached` verbatim, still armed.  When that pre-reset countdown
later fires, its installed handler closes the manager's *current*
`doneCh`, i.e. exactly the fresh channel (generation `doneGen + 1`) that
`Reset()` just created, which was unclosed until then. -/
theorem reset_frame_and_stale_fire_closes_new_done
    (m : TimerManager) (f now : Int)
    (harm : m.timer.armedAt = some f)
    (hh : m.timer.hasHandler = true) :
    m.reset.subs = m.subs ∧
      m.reset.detached.get? m.detached.length = some m.timer ∧
      (m.reset.fireDetached m.detached.length now).doneClosed = true ∧
      m.reset.doneClosed = false ∧
      m.reset.doneGen = m.doneGen + 1 ∧
      (m.reset.fireDetached m.detached.length now).doneGen
          = m.doneGen + 1 := by
  have hget : m.reset.detached.get? m.detached.length = some m.timer := by
    simp [TimerManager.reset]
  refine ⟨rfl, hget, ?_, rfl, rfl, ?_⟩
  · simp [TimerManager.fireDetached, hget, harm, hh, TimerManager.reset]
  · simp [TimerManager.fireDetached, hget, harm, TimerManager.reset]

/-- Witness for C9: a 100 ns manager started at instant 0 (armed to fire
at 100, handler installed), reset, with the stale fire at instant 100. -/
theorem reset_frame_and_stale_fire_closes_new_done_witness :
    (((NewTimerManager 100).start 0).reset.fireDetached 0 100).doneClosed
        = true ∧
      ((NewTimerManager 100).start 0).reset.doneClosed = false :=
  ⟨(reset_frame_and_stale_fire_closes_new_done
      ((NewTimerManager 100).start 0) 100 100 (by decide) (by decide)).2.2.1,
   (reset_frame_and_stale_fire_closes_new_done
      ((NewTimerManager 100).start 0) 100 100 (by decide) (by decide)).2.2.2.1⟩

/- ------------------------------------------------------------------ -/
/- polybar package: nil-safe wrappers and command dispatch             -/
/- ------------------------------------------------------------------ -/

/-- `getTimerManager()`: returns the injected manager, possibly nil. -/
def getTimerManager (injected : Option TimerManager) : Option TimerManager :=
  injected

/-- polybar `TimerStart()`: calls `tm.Start()` only when the injected
manager is non-nil.  `Except` tracks abnormal termination: a Go panic
(e.g. a nil-pointer dereference) would be `.error`; the guarded wrapper
never produces one. -/
def TimerStart (injected : Option TimerManager) (now : Int) :
    Except String (Option TimerManager) :=
  match getTimerManager injected with
  | some m => .ok (some (m.start now))
  | none => .ok none

/-- polybar `TimerStop()`: nil-guarded `tm.Stop()`. -/
def TimerStop (injected : Option TimerManager) :
    Except String (Option TimerManager) :=
  match getTimerManager injected with
  | some m => .ok (some m.stop)
  | none => .ok none

/-- polybar `TimerInc()`: nil-guarded `tm.Inc()`. -/
def TimerInc (injected : Option TimerManager) :
    Except String (Option TimerManager) :=
  match getTimerManager injected with
  | some m => .ok (some m.inc)
  | none => .ok none

/-- polybar `TimerDec()`: nil-guarded `tm.Dec()`. -/
def TimerDec (injected : Option TimerManager) :
    Except String (Option TimerManager) :=
  match getTimerManager injected with
  | some m => .ok (some m.dec)
  | none => .ok none

/-- polybar `Snapshot()`: `tm.Snapshot()` when non-nil, else `0`. -/
def SnapshotWrap (injected : Option TimerManager) : Except String Int :=
  match getTimerManager injected with
  | some m => .ok m.snapshot
  | none => .ok 0

/-- polybar `Subscribe()`: `tm.Subscribe()` when non-nil (the returned
channel is identified by its index in the subscriber slice), else a nil
channel. -/
def SubscribeWrap (injected : Option TimerManager) :
    Except String (Option TimerManager × Option Nat) :=
  match getTimerManager injected with
  | some m => .ok (some m.subscribe, some m.subs)
  | none => .ok (injected, none)

/-- One iteration of the `switch cmd` body of polybar `handle_cmds` for a
scanned line `cmd`: routes the exact tokens to the nil-safe wrappers; the
`gui` token invokes the registered toggle callback when one is set (the
second component counts its invocations); any other line only logs. -/
def handleCmdLine (injected : Option TimerManager) (hasGuiCb : Bool)
    (now : Int) (cmd : String) :
    Except String (Option TimerManager × Nat) :=
  if cmd = "start" then (TimerStart injected now).map (fun s => (s, 0))
  else if cmd = "gui" then .ok (injected, if hasGuiCb then 1 else 0)
  else if cmd = "inc" then (TimerInc injected).map (fun s => (s, 0))
  else if cmd = "dec" then (TimerDec injected).map (fun s => (s, 0))
  else if cmd = "stop" then (TimerStop injected).map (fun s => (s, 0))
  else .ok (injected, 0)

/-- C10: with no Timer Coordinator injected (nil manager), every
package-level wrapper returns normally (no panic, `.ok`): the four
control wrappers are no-ops, `Snapshot` returns 0, and `Subscribe`
returns a nil channel. -/
theorem wrappers_nil_manager_safe (now : Int) :
    TimerStart none now = .ok none ∧
      TimerStop none = .ok none ∧
      TimerInc none = .ok none ∧
      TimerDec none = .ok none ∧
      SnapshotWrap none = .ok 0 ∧
      SubscribeWrap none = .ok (none, none) := by
  refine ⟨rfl, rfl, rfl, rfl, rfl, rfl⟩

/-- C8: with a (non-nil) coordinator injected, the dispatch switch maps
exactly `start`/`stop`/`inc`/`dec` to the corresponding coordinator
controls, maps `gui` to the registered toggle callback when set (no-op
otherwise), and leaves the coordinator untouched — with no error — on
every other line. -/
theorem handle_cmds_token_mapping
    (m : TimerManager) (cb : Bool) (now : Int) (s : String) :
    handleCmdLine (some m) cb now "start" = .ok (some (m.start now), 0) ∧
      handleCmdLine (some m) cb now "stop" = .ok (some m.stop, 0) ∧
      handleCmdLine (some m) cb now "inc" = .ok (some m.inc, 0) ∧
      handleCmdLine (some m) cb now "dec" = .ok (some m.dec, 0) ∧
      handleCmdLine (some m) cb now "gui"
          = .ok (some m, if cb then 1 else 0) ∧
      (s ≠ "start" → s ≠ "stop" → s ≠ "inc" → s ≠ "dec" → s ≠ "gui" →
        handleCmdLine (some m) cb now s = .ok (some m, 0)) := by
  refine ⟨rfl, rfl, rfl, rfl, rfl, ?_⟩
  intro h1 h2 h3 h4 h5
  simp [handleCmdLine, h1, h2, h3, h4, h5]

/-- Witness for C8 at the unrecognized line `"hello"`. -/
theorem handle_cmds_token_mapping_witness :
    handleCmdLine (some (NewTimerManager 100)) true 0 "hello"
        = .ok (some (NewTimerManager 100), 0) :=
  (handle_cmds_token_mapping (NewTimerManager 100) true 0 "hello").2.2.2.2.2
    (by decide) (by decide) (by decide) (by decide) (by decide)

/- ------------------------------------------------------------------ -/
/- polybar package: FIFO allocation (mkfifoUnique / canUseFifo)        -/
/- ------------------------------------------------------------------ -/

/-- A filesystem entry at a candidate path, as the allocation loop
distinguishes them: a named pipe (with whether a non-blocking
open-for-write on it succeeds) or some other kind of file.  A path with
no entry is `none` in the `fs` map, and `syscall.Mkfifo` succeeds there. -/
inductive FsEntry where
  | namedPipe (writeOpenOk : Bool)
  | otherFile
deriving Repr, DecidableEq

/-- The candidate path of attempt `i` in `mkfifoUnique`:
`base.<pid>` for `i = 0`, `base.<pid>.<i>` afterwards. -/
def candidatePath (base : String) (pid : Nat) (i : Nat) : String :=
  if i = 0 then base ++ "." ++ toString pid
  else base ++ "." ++ toString pid ++ "." ++ toString i

/-- polybar `canUseFifo(path)`: a non-blocking `O_WRONLY` open succeeds. -/
def canUseFifo (fs : String → Option FsEntry) (path : String) : Bool :=
  match fs path with
  | some (.namedPipe ok) => ok
  | _ => false

/-- The `for i := 0; i < 1000; i++` body of polybar `mkfifoUnique`, with
`fuel` remaining attempts starting at attempt index `i`:
`Mkfifo` succeeds on a free path; on `EEXIST`, a named-pipe entry is
reused exactly when `canUseFifo` holds, and any other entry (or an
unusable pipe) is skipped.  Exhausting the attempts is the fatal
allocation error (`none`). -/
def mkfifoLoop (fs : String → Option FsEntry) (base : String) (pid : Nat) :
    Nat → Nat → Option String
  | 0, _ => none
  | fuel + 1, i =>
    let path := candidatePath base pid i
    match fs path with
    | none => some path
    | some (.namedPipe ok) =>
      if ok then some path else mkfifoLoop fs base pid fuel (i + 1)
    | some .otherFile => mkfifoLoop fs base pid fuel (i + 1)

/-- polybar `mkfifoUnique(base, mode)` for process id `pid` over the
filesystem `fs`: up to 1000 attempts starting at attempt 0. -/
def mkfifoUnique (fs : String → Option FsEntry) (base : String)
    (pid : Nat) : Option String :=
  mkfifoLoop fs base pid 1000 0

/-- Whether attempt `i` is usable, following the spec's words: the
candidate path is free (the pipe can be created there), or it already
holds a named pipe on which the non-blocking open for writing succeeds. -/
def fifoAttemptUsable (fs : String → Option FsEntry) (base : String)
    (pid : Nat) (i : Nat) : Bool :=
  match fs (candidatePath base pid i) with
  | none => true
  | some (.namedPipe ok) => ok
  | some .otherFile => false

/-- The allocation loop returns the candidate of the first usable attempt
among attempts `i, i+1, …, i+fuel-1`, and fails iff none is usable. -/
theorem mkfifoLoop_eq_find (fs : String → Option FsEntry) (base : String)
    (pid : Nat) :
    ∀ fuel i, mkfifoLoop fs base pid fuel i =
      ((List.range' i fuel).find? (fifoAttemptUsable fs base pid)).map
        (candidatePath base pid) := by
  intro fuel
  induction fuel with
  | zero => intro i; rfl
  | succ n ih =>
    intro i
    rw [List.range'_succ]
    rw [List.find?_cons]
    unfold mkfifoLoop
    by_cases h : fifoAttemptUsable fs base pid i = true
    · simp only [h]
      unfold fifoAttemptUsable at h
      cases hfs : fs (candidatePath base pid i) with
      | none => simp [hfs]
      | some e =>
        cases e with
        | namedPipe ok =>
          rw [hfs] at h
          simp only [hfs]
          simp at h
          simp [h]
        | otherFile => rw [hfs] at h; simp at h
    · simp only [Bool.not_eq_true] at h
      simp only [h]
      unfold fifoAttemptUsable at h
      cases hfs : fs (candidatePath base pid i) with
      | none => rw [hfs] at h; simp at h
      | some e =>
        cases e with
        | namedPipe ok =>
          rw [hfs] at h
          simp only [hfs]
          simp at h
          simp [h, ih]
        | otherFile => simp [hfs, ih]

/-- C6: `mkfifoUnique` tries the candidates `base.<pid>`,
`base.<pid>.1`, `base.<pid>.2`, … in order for at most 1000 attempts and
returns the first usable one — a free path, or an existing entry exactly
when it is a named pipe whose non-blocking open for writing succeeds
(existing non-pipe entries and busy pipes are skipped) — and reports the
fatal allocation error (`none`) iff all 1000 attempts are unusable. -/
theorem mkfifoUnique_first_usable_candidate
    (fs : String → Option FsEntry) (base : String) (pid : Nat) :
    mkfifoUnique fs base pid =
      ((List.range 1000).find? (fifoAttemptUsable fs base pid)).map
        (candidatePath base pid) := by
  rw [List.range_eq_range']
  exact mkfifoLoop_eq_find fs base pid 1000 0

/- ------------------------------------------------------------------ -/
/- polybar package: idempotent Shutdown                                -/
/- ------------------------------------------------------------------ -/

/-- The shared polybar shutdown state: `stopOnceDone` is `stopOnce`'s
"done" bit, `stoppingClosed` whether the `stopping` channel has been
closed, `fifoRemoveCount` how many times `os.Remove(fifoPipePath)` has
been attempted, `dispatchExited` whether the `handle_cmds` goroutine has
returned (`wg.Done`), and `doubleClosePanic` records a `close` of an
already-closed channel (the Go panic a non-idempotent shutdown would
hit). -/
structure ShutdownState where
  stopOnceDone : Bool
  stoppingClosed : Bool
  fifoRemoveCount : Nat
  dispatchExited : Bool
  doubleClosePanic : Bool
deriving Repr, DecidableEq

/-- The atomic events of concurrent shutdown: one caller's
`stopOnce.Do` (the body runs only if no caller ran it yet — `sync.Once`
serializes the bodies under its mutex), the dispatch loop observing the
closed `stopping` channel and exiting, and a caller's `wg.Wait()`
completing so that its `Shutdown` call returns. -/
inductive ShutdownAct where
  | shutdownBody
  | dispatchExit
  | callerWait
deriving Repr, DecidableEq

/-- The state before any shutdown, with `Init` done and the dispatch
goroutine running: nothing closed, pipe present, loop not exited. -/
def initShutdownState : ShutdownState :=
  { stopOnceDone := false
    stoppingClosed := false
    fifoRemoveCount := 0
    dispatchExited := false
    doubleClosePanic := false }

/-- One atomic event (`hasPath` = `fifoPipePath != ""`).  `none` means
the event is not enabled: `dispatchExit` only happens once the `stopping`
channel is closed (and only once), and `callerWait` — `wg.Wait`
returning — only once the dispatch goroutine has exited. -/
def shutdownStep (hasPath : Bool) (s : ShutdownState) (a : ShutdownAct) :
    Option ShutdownState :=
  match a with
  | .shutdownBody =>
    if s.stopOnceDone then some s
    else some { s with
      stopOnceDone := true
      doubleClosePanic := s.doubleClosePanic || s.stoppingClosed
      stoppingClosed := true
      fifoRemoveCount := s.fifoRemoveCount + (if hasPath then 1 else 0) }
  | .dispatchExit =>
    if s.stoppingClosed && !s.dispatchExited then
      some { s with dispatchExited := true }
    else none
  | .callerWait =>
    if s.dispatchExited then some s else none

/-- Run a sequence of atomic shutdown events; `none` if some event in it
was not enabled at its point. -/
def runShutdown (hasPath : Bool) :
    ShutdownState → List ShutdownAct → Option ShutdownState
  | s, [] => some s
  | s, a :: rest =>
    (shutdownStep hasPath s a).bind fun s' => runShutdown hasPath s' rest

/-- The inductive invariant of concurrent shutdown (with the pipe path
set): the `stopping` channel is closed exactly when the once-body has
run, no double close ever happened, the pipe file has been removed
exactly once iff the once-body has run, and the dispatch loop only exits
after the `stopping` channel is closed. -/
def ShutdownInv (s : ShutdownState) : Prop :=
  s.stoppingClosed = s.stopOnceDone ∧
    s.doubleClosePanic = false ∧
    s.fifoRemoveCount = (if s.stopOnceDone then 1 else 0) ∧
    (s.dispatchExited = true → s.stoppingClosed = true)

theorem shutdownStep_preserves_inv (s s' : ShutdownState) (a : ShutdownAct)
    (hinv : ShutdownInv s) (hstep : shutdownStep true s a = some s') :
    ShutdownInv s' ∧ (s.stopOnceDone = true → s'.stopOnceDone = true) ∧
      (a = .shutdownBody → s'.stopOnceDone = true) := by
  obtain ⟨h1, h2, h3, h4⟩ := hinv
  cases a with
  | shutdownBody =>
    simp only [shutdownStep] at hstep
    split at hstep
    case isTrue hd =>
      injection hstep with he
      subst he
      exact ⟨⟨h1, h2, h3, h4⟩, fun h => h, fun _ => hd⟩
    case isFalse hd =>
      injection hstep with he
      subst he
      have hd' : s.stopOnceDone = false := by
        simpa using hd
      refine ⟨⟨rfl, ?_, ?_, fun _ => rfl⟩, fun _ => rfl, fun _ => rfl⟩
      · simp [h2, h1, hd']
      · simp [h3, hd']
  | dispatchExit =>
    simp only [shutdownStep] at hstep
    split at hstep
    case isTrue hg =>
      injection hstep with he
      subst he
      rw [Bool.and_eq_true] at hg
      exact ⟨⟨h1, h2, h3, fun _ => hg.1⟩, fun h => h, fun hc => by simp at hc⟩
    case isFalse hg =>
      simp at hstep
  | callerWait =>
    simp only [shutdownStep] at hstep
    split at hstep
    case isTrue hg =>
      injection hstep with he
      subst he
      exact ⟨⟨h1, h2, h3, h4⟩, fun h => h, fun hc => by simp at hc⟩
    case isFalse hg =>
      simp at hstep

theorem runShutdown_preserves_inv (acts : List ShutdownAct) :
    ∀ s s', ShutdownInv s → runShutdown true s acts = some s' →
      ShutdownInv s' ∧ (s.stopOnceDone = true → s'.stopOnceDone = true) ∧
        (ShutdownAct.shutdownBody ∈ acts → s'.stopOnceDone = true) := by
  induction acts with
  | nil =>
    intro s s' hinv hrun
    simp only [runShutdown, Option.some.injEq] at hrun
    subst hrun
    exact ⟨hinv, fun h => h, fun hc => by simp at hc⟩
  | cons a rest ih =>
    intro s s' hinv hrun
    simp only [runShutdown] at hrun
    cases hstep : shutdownStep true s a with
    | none =>
      rw [hstep] at hrun
      simp at hrun
    | some sm =>
      rw [hstep] at hrun
      simp only [Option.some_bind] at hrun
      obtain ⟨hinvm, hmono, hbody⟩ :=
        shutdownStep_preserves_inv s sm a hinv hstep
      obtain ⟨hinv', hmono', hmem'⟩ := ih sm s' hinvm hrun
      refine ⟨hinv', fun h => hmono' (hmono h), ?_⟩
      intro hmem
      rcases List.mem_cons.mp hmem with heq | hrest
      · exact hmono' (hbody heq.symm)
      · exact hmem' hrest

theorem runShutdown_no_body_keeps_stopOnce (l : List ShutdownAct) :
    ∀ t t', ShutdownAct.shutdownBody ∉ l → t.stopOnceDone = false →
      runShutdown true t l = some t' → t'.stopOnceDone = false := by
  induction l with
  | nil =>
    intro t t' _ hf hr
    simp only [runShutdown, Option.some.injEq] at hr
    subst hr
    exact hf
  | cons a rest ih =>
    intro t t' hnm hf hr
    simp only [runShutdown] at hr
    cases hstep : shutdownStep true t a with
    | none =>
      rw [hstep] at hr
      simp at hr
    | some tm =>
      rw [hstep] at hr
      simp only [Option.some_bind] at hr
      have hna : a ≠ ShutdownAct.shutdownBody := by
        intro heq
        exact hnm (heq ▸ List.mem_cons_self a rest)
      have hfm : tm.stopOnceDone = false := by
        cases a with
        | shutdownBody => exact absurd rfl hna
        | dispatchExit =>
          simp only [shutdownStep] at hstep
          split at hstep
          · injection hstep with he
            subst he
            exact hf
          · simp at hstep
        | callerWait =>
          simp only [shutdownStep] at hstep
          split at hstep
          · injection hstep with he
            subst he
            exact hf
          · simp at hstep
      exact ih tm t' (fun hm => hnm (List.mem_cons_of_mem a hm)) hfm hr

theorem runShutdown_append (hasPath : Bool) (p q : List ShutdownAct) :
    ∀ s, runShutdown hasPath s (p ++ q) =
      (runShutdown hasPath s p).bind
        (fun s' => runShutdown hasPath s' q) := by
  induction p with
  | nil =>
    intro s
    simp [runShutdown]
  | cons a rest ih =>
    intro s
    simp only [List.cons_append, runShutdown]
    cases shutdownStep hasPath s a with
    | none => simp
    | some s2 => simp [ih s2]

/-- C7: along every interleaving of shutdown events — in particular three
concurrent `Shutdown` invocations (each one `stopOnce.Do` attempt then
one `wg.Wait`) — that runs from the post-`Init` state with the pipe path
set: no invocation panics by double-closing `stopping`, the pipe file is
removed exactly once when at least one invocation occurred (and never
more than once), and every `wg.Wait` completion (a `Shutdown` call
returning) happens only at a point where the dispatch-loop goroutine has
already exited. -/
theorem shutdown_idempotent_concurrent
    (acts : List ShutdownAct) (s' : ShutdownState)
    (hrun : runShutdown true initShutdownState acts = some s') :
    s'.doubleClosePanic = false ∧
      s'.fifoRemoveCount =
        (if ShutdownAct.shutdownBody ∈ acts then 1 else 0) ∧
      (∀ p q, acts = p ++ ShutdownAct.callerWait :: q →
        ∃ sp, runShutdown true initShutdownState p = some sp ∧
          sp.dispatchExited = true) := by
  have hinv0 : ShutdownInv initShutdownState := by
    exact ⟨rfl, rfl, rfl, fun h => absurd h (by decide)⟩
  obtain ⟨⟨_, hpanic, hcount, _⟩, _, hmem⟩ :=
    runShutdown_preserves_inv acts initShutdownState s' hinv0 hrun
  refine ⟨hpanic, ?_, ?_⟩
  · by_cases hb : ShutdownAct.shutdownBody ∈ acts
    · rw [if_pos hb, hcount, hmem hb]
      rfl
    · rw [if_neg hb, hcount,
        runShutdown_no_body_keeps_stopOnce acts initShutdownState s' hb rfl
          hrun]
      rfl
  · intro p q heq
    subst heq
    rw [runShutdown_append] at hrun
    cases hp : runShutdown true initShutdownState p with
    | none =>
      rw [hp] at hrun
      simp at hrun
    | some sp =>
      rw [hp] at hrun
      simp only [Option.some_bind, runShutdown] at hrun
      by_cases hg : sp.dispatchExited = true
      · exact ⟨sp, rfl, hg⟩
      · have hg' : sp.dispatchExited = false := by simpa using hg
        simp only [shutdownStep, hg', Bool.false_eq_true, if_false] at hrun
        simp at hrun

/-- Witness for C7: three concurrent `Shutdown` invocations — three
once-body attempts, the dispatch loop exiting, then the three `wg.Wait`s
returning — end with no panic and the pipe removed exactly once. -/
theorem shutdown_idempotent_concurrent_witness :
    (ShutdownState.mk true true 1 true false).doubleClosePanic = false ∧
      (ShutdownState.mk true true 1 true false).fifoRemoveCount = 1 :=
  have h := shutdown_idempotent_concurrent
    [ShutdownAct.shutdownBody, ShutdownAct.shutdownBody,
     ShutdownAct.shutdownBody, ShutdownAct.dispatchExit,
     ShutdownAct.callerWait, ShutdownAct.callerWait,
     ShutdownAct.callerWait]
    (ShutdownState.mk true true 1 true false) (by decide)
  ⟨h.1, h.2.1.trans (by decide)⟩
